import Mathlib

set_option maxHeartbeats 1000000

namespace TurnTaking

/-- Question record used by all scripted hook variants:
`interface Question with id, agent_question, user_answer, timeout, order, weight`.
An empty `user_answer` means the question is still unanswered (JS falsy check). -/
structure Question where
  id : String
  agent_question : String
  user_answer : String
  timeout : Nat
  order : Int
  weight : Int
deriving Repr, DecidableEq

/-- Embedding of the dedupe pass
`questions.filter((q) => seen.has(q.id) ? false : (seen.add(q.id), true))`
shared by useVoiceChatv1, useVoiceChatv2 and the hard-timer variant:
the accumulator `seen` holds the ids already kept, so the first occurrence
of each id wins. -/
def dedupeAux : List Question → List String → List Question
  | [], _ => []
  | q :: rest, seen =>
    if q.id ∈ seen then dedupeAux rest seen
    else q :: dedupeAux rest (q.id :: seen)

/-- Dedupe with an initially empty seen set, as in the hooks. -/
def dedupe (qs : List Question) : List Question := dedupeAux qs []

/-- Embedding of `unique.sort((a, b) => a.order - b.order)`: a stable sort by
ascending `order` (ECMAScript sort is stable). -/
def sortByOrder (qs : List Question) : List Question :=
  qs.mergeSort (fun a b => decide (a.order ≤ b.order))

/-- The processed question set stored in `dedupedQuestions`:
dedupe by id (first occurrence wins), then sort ascending by `order`. -/
def processQuestions (qs : List Question) : List Question :=
  sortByOrder (dedupe qs)

/-- Embedding of `dedupedQuestions.find((q) => !q.user_answer)`:
the current question is found by `find?` over the processed list. -/
def currentQuestionOf (qs : List Question) : Option Question :=
  qs.find? (fun q => q.user_answer == "")

/-- Spec-side characterization used for refinement of `currentQuestionOf`:
the first entry of the list whose answer is empty, written by direct
recursion on the list ("current = first entry with empty answer"). -/
def firstUnanswered : List Question → Option Question
  | [] => none
  | q :: rest => if q.user_answer = "" then some q else firstUnanswered rest

/-- Answer update used by every variant on resolution:
`prev.map((q) => q.id === question.id ? ( ...q, user_answer: answer ) : q)`. -/
def setAnswer (qs : List Question) (qid answer : String) : List Question :=
  qs.map (fun q => if q.id == qid then { q with user_answer := answer } else q)

/-- Decision outcomes of a `recognition.onend` handler: do nothing, schedule
another listening attempt, or resolve the question with a final answer. -/
inductive OnendDecision where
  | noop
  | retry (next : Nat)
  | resolve (answer : String)
deriving Repr, DecidableEq

/-- Decision logic of `recognition.onend` in useVoiceChatv2 `tryListening`
(after the silence timer is cleared): a captured result is already handled;
`noMatch` retries while `attempt < 3` and otherwise resolves "[Unintelligible]";
pure silence retries while `attempt < 3` and otherwise resolves "[No response]". -/
def onendDecision (hasResult hasNoMatch : Bool) (attempt : Nat) : OnendDecision :=
  if hasResult then .noop
  else if hasNoMatch then
    if attempt < 3 then .retry (attempt + 1) else .resolve "[Unintelligible]"
  else
    if attempt < 3 then .retry (attempt + 1) else .resolve "[No response]"

/-- One turn of useVoiceChatv2 under the all-silence schedule: every
recognizer attempt ends (fires `ended`) with no result, no noMatch and no
audio activity, so each `onend` runs with both flags false. Returns the
number of listening attempts run and the resolved answer. `fuel` bounds the
recursion; 3 suffices because the retry bound is 3. -/
def runSilentTurn : Nat → Nat → Nat × String
  | _, 0 => (0, "")
  | attempt, fuel + 1 =>
    match onendDecision false false attempt with
    | .retry next =>
      let r := runSilentTurn next fuel
      (r.1 + 1, r.2)
    | .resolve ans => (1, ans)
    | .noop => (0, "")

/-- Session driver of useVoiceChatv2 under the all-silence schedule: the
current question is the first entry with an empty answer; its turn starts at
attempt 1, resolves via `runSilentTurn`, the answer is written back with
`setAnswer` and one `onUserSpoken` emission `(question id, answer)` is
recorded; then the next current question is processed. `fuel` bounds the
number of turns. Returns the final question list, the emissions in order,
and the per-turn attempt counts. -/
def runSilentSession : List Question → Nat → List Question × List (String × String) × List Nat
  | qs, 0 => (qs, [], [])
  | qs, fuel + 1 =>
    match qs.find? (fun q => q.user_answer == "") with
    | none => (qs, [], [])
    | some q =>
      let t := runSilentTurn 1 3
      let qs1 := setAnswer qs q.id t.2
      let rest := runSilentSession qs1 fuel
      (rest.1, (q.id, t.2) :: rest.2.1, t.1 :: rest.2.2)

/-- The three prompts of the spec scenario, ids A, B, C, all unanswered,
ascending `order`. -/
def promptA : Question :=
  { id := "A", agent_question := "question A", user_answer := "",
    timeout := 30, order := 1, weight := 1 }

def promptB : Question :=
  { id := "B", agent_question := "question B", user_answer := "",
    timeout := 30, order := 2, weight := 1 }

def promptC : Question :=
  { id := "C", agent_question := "question C", user_answer := "",
    timeout := 30, order := 3, weight := 1 }

/-- State of the hard-timer scripted variant (the third hook of useVoice.ts):
the `dedupedQuestions` list, the set of question ids with an armed hard
deadline (`questionMaxTimeoutRef` keys), whether the silence timer is armed
(`promptTimerRef !== null`), the per-attempt flags (`hasResultRef`,
`hasNoMatchRef`, `audioActiveRef`, `retryHandledRef`), whether a recognizer
attempt is running, the `onUserSpoken` emission texts in order, and a ghost
log of the transcripts delivered by recognizer results. -/
structure VState where
  questions : List Question
  hardTimers : List String
  silenceArmed : Bool
  hasResult : Bool
  hasNoMatch : Bool
  audioActive : Bool
  retryHandled : Bool
  recognizerActive : Bool
  emissions : List String
  transcripts : List String
deriving Repr, DecidableEq

/-- Embedding of `finalizeQuestion(questionId)`: clear the hard
deadline (delete its `questionMaxTimeoutRef` entry) and clear the silence
timer. (The duration logging is omitted: it only writes to the console.) -/
def finalizeQuestion (qid : String) (s : VState) : VState :=
  { s with hardTimers := s.hardTimers.filter (fun k => !(k == qid)),
           silenceArmed := false }

/-- Turn start in `speakAgentQuestion`: the hard-deadline timer for the
question is armed (`questionMaxTimeoutRef.set`) before the utterance is
spoken. -/
def startTurn (qid : String) (s : VState) : VState :=
  { s with hardTimers := qid :: s.hardTimers.filter (fun k => !(k == qid)) }

/-- Embedding of the `maxTimeout` callback armed in `speakAgentQuestion`
(fires after MAX_TIMEOUT_TIMER = 30 s): if the question already has a
non-empty answer, only finalize; otherwise write "[Timeout]" into the
answer of the question, emit `onUserSpoken("[Timeout]", updated)` and finalize. -/
def fireHardTimeout (qid : String) (s : VState) : VState :=
  if s.questions.any (fun q => q.id == qid && !(q.user_answer == "")) then
    finalizeQuestion qid s
  else
    finalizeQuestion qid
      { s with questions := setAnswer s.questions qid "[Timeout]",
               emissions := s.emissions ++ ["[Timeout]"] }

/-- Entry of `tryListening` in the hard-timer variant (reached from
`utterance.onend`): reset the per-attempt flags, start recognition and arm
the initial silence timer. -/
def startListening (s : VState) : VState :=
  { s with hasResult := false, hasNoMatch := false, audioActive := false,
           retryHandled := false, recognizerActive := true,
           silenceArmed := true }

/-- Embedding of `recognition.onaudiostart`: record voice activity and
cancel any pending silence timer (clear `promptTimerRef`). -/
def onAudioStart (s : VState) : VState :=
  { s with audioActive := true, silenceArmed := false }

/-- Embedding of `recognition.onaudioend`: voice activity ceased; if neither
a result nor a noMatch has occurred in this attempt, (re)arm the silence
timer via `startSilenceTimer`. -/
def onAudioEnd (s : VState) : VState :=
  { s with audioActive := false,
           silenceArmed :=
             if !s.hasResult && !s.hasNoMatch then true else s.silenceArmed }

/-- Embedding of `recognition.onresult` of the hard-timer variant: set
`hasResultRef`, clear the silence timer, write the transcript into the
answer of the question, emit `onUserSpoken(transcript, updated)`, finalize the
question and stop recognition. The transcript is also appended to the ghost
log. -/
def onResult (t : String) (qid : String) (s : VState) : VState :=
  let s1 := finalizeQuestion qid
    { s with hasResult := true, silenceArmed := false,
             questions := setAnswer s.questions qid t,
             emissions := s.emissions ++ [t],
             transcripts := s.transcripts ++ [t] }
  { s1 with recognizerActive := false }

/-- Embedding of `recognition.onnomatch`: set `hasNoMatchRef`, clear the
silence timer and stop recognition. -/
def onNoMatch (s : VState) : VState :=
  { s with hasNoMatch := true, silenceArmed := false,
           recognizerActive := false }

/-- Embedding of `recognition.onerror`: clear the silence timer, mark the
attempt handled (`retryHandledRef`) and stop recognition. -/
def onRecError (s : VState) : VState :=
  { s with silenceArmed := false, retryHandled := true,
           recognizerActive := false }

/-- The final answer written on a failed attempt sequence:
"[Unintelligible]" when a noMatch occurred, "[No response]" for pure
silence. Shared by the hard-timer variant `onend` and useVoiceChatv2. -/
def resolveAnswer (hasNoMatch : Bool) : String :=
  if hasNoMatch then "[Unintelligible]" else "[No response]"

/-- Embedding of `recognition.onend` of the hard-timer variant and its
`tryListening`: return if already handled, otherwise mark handled and clear
the silence timer; if a result was captured stop; else, when enough time
elapsed (`elapsedTime >= SILENCE_TIMER * attempt`, a nondeterministic input
here) or a noMatch occurred, either retry (dead branch: it requires
`attempt < 1`, and attempts start at 1) or resolve the question with the
failure-class answer, emit it and finalize. -/
def onEnd (qid : String) (elapsedGE : Bool) (attempt : Nat) (s : VState) : VState :=
  if s.retryHandled then s
  else
    let s1 := { s with retryHandled := true, silenceArmed := false }
    if s1.hasResult then s1
    else if elapsedGE || s1.hasNoMatch then
      if attempt < 1 && !s1.hasNoMatch then s1
      else
        let ans := resolveAnswer s1.hasNoMatch
        finalizeQuestion qid
          { s1 with questions := setAnswer s1.questions qid ans,
                    emissions := s1.emissions ++ [ans] }
    else s1

/-- Firing of the silence timer: its callback calls `recognition.stop()`;
the timer itself is spent. -/
def onSilenceFire (s : VState) : VState :=
  { s with silenceArmed := false, recognizerActive := false }

/-- Answer of the question `qid` in the list, reading through `find?` (the
first entry with that id); empty means unresolved. -/
def getAnswer (qs : List Question) (qid : String) : String :=
  match qs.find? (fun q => q.id == qid) with
  | some q => q.user_answer
  | none => ""

/-- The three failure sentinels of the turn controller. -/
def sentinels : List String := ["[No response]", "[Unintelligible]", "[Timeout]"]

/-- States of the hard-timer variant reachable from a turn start for
question `qid` by recognizer, synthesizer and timer events. The turn starts
with `speakAgentQuestion` on a deduplicated list (ids are unique) in which
`qid` is present and unanswered; a recognizer result always carries a
non-empty transcript; `onend` always belongs to attempt 1, the only attempt
number `tryListening` is ever called with in this variant. -/
inductive Reach (qid : String) : VState → Prop where
  | start (qs : List Question)
      (hmem : qid ∈ qs.map Question.id)
      (hnd : (qs.map Question.id).Nodup)
      (hempty : getAnswer qs qid = "") :
      Reach qid (startTurn qid
        { questions := qs, hardTimers := [], silenceArmed := false,
          hasResult := false, hasNoMatch := false, audioActive := false,
          retryHandled := false, recognizerActive := false,
          emissions := [], transcripts := [] })
  | listenStart {s} : Reach qid s → Reach qid (startListening s)
  | audioStart {s} : Reach qid s → Reach qid (onAudioStart s)
  | audioEnd {s} : Reach qid s → Reach qid (onAudioEnd s)
  | result {s} (t : String) (ht : t ≠ "") : Reach qid s → Reach qid (onResult t qid s)
  | noMatch {s} : Reach qid s → Reach qid (onNoMatch s)
  | recError {s} : Reach qid s → Reach qid (onRecError s)
  | ended {s} (elapsedGE : Bool) : Reach qid s → Reach qid (onEnd qid elapsedGE 1 s)
  | silence {s} : Reach qid s → Reach qid (onSilenceFire s)
  | hard {s} : Reach qid s → Reach qid (fireHardTimeout qid s)

/-- Invariant of the hard-timer variant: the current question is present in
the (id-unique) list; while its answer is empty its hard-deadline timer is
armed; and its answer is empty, a delivered transcript, or a sentinel. -/
def Inv (qid : String) (s : VState) : Prop :=
  qid ∈ s.questions.map Question.id ∧
  (s.questions.map Question.id).Nodup ∧
  (getAnswer s.questions qid = "" → qid ∈ s.hardTimers) ∧
  (getAnswer s.questions qid = "" ∨ getAnswer s.questions qid ∈ s.transcripts ∨
    getAnswer s.questions qid ∈ sentinels)

/-- ASCII model of JS `toLowerCase()` on one character. -/
def toLowerChar (c : Char) : Char :=
  if 65 ≤ c.toNat ∧ c.toNat ≤ 90 then Char.ofNat (c.toNat + 32) else c

/-- Whitespace predicate for the JS `trim()` model. -/
def isSpaceChar (c : Char) : Bool :=
  c == ' ' || c == '\t' || c == '\n' || c == '\r'

/-- Model of JS `trim()`: drop whitespace from both ends. -/
def jsTrim (s : String) : String :=
  String.mk (((s.data.dropWhile isSpaceChar).reverse.dropWhile isSpaceChar).reverse)

/-- Model of JS `toLowerCase()` (ASCII range, all this code needs). -/
def jsLower (s : String) : String := String.mk (s.data.map toLowerChar)

/-- The anti-echo filter test used by both live variants:
`userText.trim().toLowerCase() === "can you hear me?"` (a single-quoted JS literal in the source). -/
def isEcho (t : String) : Bool := jsLower (jsTrim t) == "can you hear me?"

/-- State of the live-agent variants: SpeakingFlag (`agentIsSpeakingRef`),
whether `currentUtteranceRef` holds an utterance (first variant only),
whether the websocket is open, the `user_message` texts sent in order, the
number of `speechSynthesis.cancel()` calls, and whether a recognizer
attempt is running. -/
structure LiveState where
  agentIsSpeaking : Bool
  utterancePresent : Bool
  wsOpen : Bool
  sent : List String
  cancelCalls : Nat
  recognizerActive : Bool
deriving Repr, DecidableEq

/-- Embedding of `recognition.onresult` of the first live variant, in its
`listenToUser`: if the agent is speaking, synthesis is paused and cancelled,
SpeakingFlag is cleared, the utterance ref is dropped, the transcript is
sent as a `user_message` (when the socket is open) and recognition stops;
otherwise recognition simply stops. Either way the promise resolves with
the transcript, returned as the second component. -/
def onResultLive1 (t : String) (s : LiveState) : LiveState × String :=
  if s.agentIsSpeaking then
    ({ s with cancelCalls := s.cancelCalls + 1, agentIsSpeaking := false,
              utterancePresent := false,
              sent := s.sent ++ (if s.wsOpen then [t] else []),
              recognizerActive := false }, t)
  else
    ({ s with recognizerActive := false }, t)

/-- Embedding of `recognition.onresult` of the second live variant, in its
`listenToUser`: the transcript is sent as a `user_message` unconditionally
(when the socket is open); then, if the agent is speaking, synthesis is
cancelled, SpeakingFlag is cleared and the transcript is sent once more.
The promise resolves with the transcript. Recognition is not stopped here. -/
def onResultLive2 (t : String) (s : LiveState) : LiveState × String :=
  let s1 := { s with sent := s.sent ++ (if s.wsOpen then [t] else []) }
  if s1.agentIsSpeaking then
    ({ s1 with cancelCalls := s1.cancelCalls + 1, agentIsSpeaking := false,
               sent := s1.sent ++ (if s1.wsOpen then [t] else []) }, t)
  else (s1, t)

/-- Failure values flowing into the `catch` of the retry loop: string rejections
(`reject("No speech detected")` and recognizer error strings) versus thrown
`new Error(message)` objects. A strict `===` comparison against a string
matches only the former. -/
inductive Err where
  | strErr (msg : String)
  | errorObj (msg : String)
deriving Repr, DecidableEq

/-- Outcome of one `listenToUser` call: a transcript, or a rejection. -/
inductive ListenOutcome where
  | result (t : String)
  | rejected (e : Err)
deriving Repr, DecidableEq

/-- One retry-loop attempt body of the first live variant (`tryListening`):
await `listenToUser`; if the transcript passes the echo test, throw
`new Error("No speech detected")`; otherwise send it as a `user_message`
when the socket is open. Returns the state and the failure, if any. -/
def tryAttemptLive1 (oc : ListenOutcome) (s : LiveState) : LiveState × Option Err :=
  match oc with
  | .result t =>
    let r := onResultLive1 t s
    if isEcho r.2 then (r.1, some (.errorObj "No speech detected"))
    else ({ r.1 with sent := r.1.sent ++ (if r.1.wsOpen then [r.2] else []) }, none)
  | .rejected e => (s, some e)

/-- One retry-loop attempt body of the second live variant: same filter and
send, but over the result handler of the second variant (which has already sent
the transcript before the filter runs). -/
def tryAttemptLive2 (oc : ListenOutcome) (s : LiveState) : LiveState × Option Err :=
  match oc with
  | .result t =>
    let r := onResultLive2 t s
    if isEcho r.2 then (r.1, some (.errorObj "No speech detected"))
    else ({ r.1 with sent := r.1.sent ++ (if r.1.wsOpen then [r.2] else []) }, none)
  | .rejected e => (s, some e)

/-- Retry bound of the live retry loops: `const maxAttempts = 3`. -/
def maxAttempts : Nat := 3

/-- What the `catch` handler decides to do next. -/
inductive FailStep where
  | retryStep (attempts : Nat)
  | sessionEnd
deriving Repr, DecidableEq

/-- Embedding of the `catch` handler of the live retry loops (both
variants): increment `attempts`; if the failure is exactly the string
rejection `"No speech detected"` (strict `===`) and attempts remain, retry;
otherwise, when the socket is open, send `(type session_ended, reason)` and
close it. Returns the new attempt count, the step taken, the messages sent
as (type, payload) pairs, and whether the socket is still open. -/
def handleFailure (e : Err) (attempts : Nat) (wsOpen : Bool) :
    Nat × FailStep × List (String × String) × Bool :=
  let a := attempts + 1
  if e == Err.strErr "No speech detected" && decide (a < maxAttempts) then
    (a, .retryStep a, [], wsOpen)
  else if wsOpen then
    (a, .sessionEnd,
      [("session_ended", "No speech detected after multiple attempts")], false)
  else (a, .sessionEnd, [], wsOpen)

/-- A state of the hard-timer variant in which prompt A is unanswered, its
hard deadline is armed and a recognizer attempt is pending. -/
def cexTimeoutState : VState :=
  { questions := [promptA], hardTimers := ["A"], silenceArmed := true,
    hasResult := false, hasNoMatch := false, audioActive := false,
    retryHandled := false, recognizerActive := true,
    emissions := [], transcripts := [] }

/-- A state of the hard-timer variant in which prompt A is already
answered while its hard-deadline timer is still armed. -/
def answeredState : VState :=
  { questions := [{ promptA with user_answer := "yes" }],
    hardTimers := ["A"], silenceArmed := true,
    hasResult := false, hasNoMatch := false, audioActive := false,
    retryHandled := false, recognizerActive := false,
    emissions := [], transcripts := [] }

/-- A live-agent state in the retry loop: agent not speaking, socket open,
nothing sent yet, recognizer running. -/
def liveIdle : LiveState :=
  { agentIsSpeaking := false, utterancePresent := false, wsOpen := true,
    sent := [], cancelCalls := 0, recognizerActive := true }

/-- A live-agent state while the agent is speaking, socket open. -/
def liveSpeaking : LiveState :=
  { agentIsSpeaking := true, utterancePresent := true, wsOpen := true,
    sent := [], cancelCalls := 0, recognizerActive := true }

theorem mem_dedupeAux (q : Question) :
    ∀ (qs : List Question) (seen : List String),
      q ∈ dedupeAux qs seen ↔
        (q.id ∉ seen ∧ qs.find? (fun p => p.id == q.id) = some q)
  | [], seen => by simp [dedupeAux]
  | p :: rest, seen => by
    by_cases hp : p.id ∈ seen
    · rw [dedupeAux, if_pos hp]
      by_cases hid : (p.id == q.id) = true
      · rw [@List.find?_cons_of_pos _ (fun x => x.id == q.id) p rest hid]
        constructor
        · intro hm
          rcases (mem_dedupeAux q rest seen).1 hm with ⟨hns, _⟩
          exact absurd (eq_of_beq hid ▸ hp) hns
        · rintro ⟨hns, hpq⟩
          injection hpq with hpq
          exact absurd (hpq ▸ hp) hns
      · rw [@List.find?_cons_of_neg _ (fun x => x.id == q.id) p rest hid]
        exact mem_dedupeAux q rest seen
    · rw [dedupeAux, if_neg hp]
      by_cases hid : (p.id == q.id) = true
      · rw [@List.find?_cons_of_pos _ (fun x => x.id == q.id) p rest hid]
        constructor
        · intro hm
          rcases List.mem_cons.1 hm with hqp | hqtail
          · subst hqp
            exact ⟨hp, rfl⟩
          · rcases (mem_dedupeAux q rest (p.id :: seen)).1 hqtail with ⟨hns, _⟩
            exact absurd (List.mem_cons.2 (Or.inl (eq_of_beq hid).symm)) hns
        · rintro ⟨hns, hpq⟩
          injection hpq with hpq
          exact List.mem_cons.2 (Or.inl hpq.symm)
      · rw [@List.find?_cons_of_neg _ (fun x => x.id == q.id) p rest hid]
        constructor
        · intro hm
          rcases List.mem_cons.1 hm with hqp | hqtail
          · subst hqp
            simp at hid
          · rcases (mem_dedupeAux q rest (p.id :: seen)).1 hqtail with ⟨hns, hfind⟩
            exact ⟨fun hmem => hns (List.mem_cons.2 (Or.inr hmem)), hfind⟩
        · rintro ⟨hns, hfind⟩
          refine List.mem_cons.2 (Or.inr ?_)
          refine (mem_dedupeAux q rest (p.id :: seen)).2 ⟨?_, hfind⟩
          intro hmem
          rcases List.mem_cons.1 hmem with h1 | h2
          · exact (hid (by rw [← h1]; simp)).elim
          · exact hns h2

theorem mem_dedupe (q : Question) (qs : List Question) :
    q ∈ dedupe qs ↔ qs.find? (fun p => p.id == q.id) = some q := by
  rw [dedupe, mem_dedupeAux]
  simp

theorem dedupeAux_ids_nodup :
    ∀ (qs : List Question) (seen : List String),
      ((dedupeAux qs seen).map Question.id).Nodup ∧
        ∀ i ∈ (dedupeAux qs seen).map Question.id, i ∉ seen
  | [], seen => by simp [dedupeAux]
  | p :: rest, seen => by
    by_cases hp : p.id ∈ seen
    · rw [dedupeAux, if_pos hp]
      exact dedupeAux_ids_nodup rest seen
    · rw [dedupeAux, if_neg hp]
      rcases dedupeAux_ids_nodup rest (p.id :: seen) with ⟨hnd, hdisj⟩
      constructor
      · refine List.nodup_cons.2 ⟨?_, hnd⟩
        intro hmem
        exact (hdisj _ hmem) (List.mem_cons_self _ _)
      · intro i hi
        rcases List.mem_cons.1 hi with h1 | h2
        · rwa [h1]
        · intro hmem
          exact (hdisj i h2) (List.mem_cons.2 (Or.inr hmem))

theorem dedupe_ids_nodup (qs : List Question) :
    ((dedupe qs).map Question.id).Nodup :=
  (dedupeAux_ids_nodup qs []).1

theorem processQuestions_perm_dedupe (qs : List Question) :
    (processQuestions qs).Perm (dedupe qs) :=
  List.mergeSort_perm (dedupe qs) _

theorem mem_processQuestions (q : Question) (qs : List Question) :
    q ∈ processQuestions qs ↔ qs.find? (fun p => p.id == q.id) = some q := by
  rw [← mem_dedupe]
  exact (processQuestions_perm_dedupe qs).mem_iff

theorem processQuestions_ids_nodup (qs : List Question) :
    ((processQuestions qs).map Question.id).Nodup :=
  (((processQuestions_perm_dedupe qs).map Question.id).nodup_iff).2
    (dedupe_ids_nodup qs)

theorem processQuestions_sorted (qs : List Question) :
    (processQuestions qs).Pairwise (fun a b => a.order ≤ b.order) := by
  have h := @List.sorted_mergeSort Question
    (fun a b : Question => decide (a.order ≤ b.order))
    (fun a b c hab hbc => by
      simp only [decide_eq_true_eq] at *
      exact le_trans hab hbc)
    (fun a b => by
      simp only [Bool.or_eq_true, decide_eq_true_eq]
      exact le_total a.order b.order)
    (dedupe qs)
  exact h.imp (fun hab => by simpa using hab)

theorem find_eq_firstUnanswered :
    ∀ s : List Question, currentQuestionOf s = firstUnanswered s
  | [] => rfl
  | q :: rest => by
    by_cases hq : q.user_answer = ""
    · rw [currentQuestionOf, List.find?_cons_of_pos _ (by simpa using hq),
        firstUnanswered, if_pos hq]
    · rw [currentQuestionOf, List.find?_cons_of_neg _ (by simpa using hq),
        firstUnanswered, if_neg hq]
      exact find_eq_firstUnanswered rest

theorem getAnswer_cons_pos (p : Question) (rest : List Question) (qid : String)
    (h : (p.id == qid) = true) :
    getAnswer (p :: rest) qid = p.user_answer := by
  rw [getAnswer, @List.find?_cons_of_pos _ (fun q => q.id == qid) p rest h]

theorem getAnswer_cons_neg (p : Question) (rest : List Question) (qid : String)
    (h : ¬(p.id == qid) = true) :
    getAnswer (p :: rest) qid = getAnswer rest qid := by
  rw [getAnswer, getAnswer,
    @List.find?_cons_of_neg _ (fun q => q.id == qid) p rest h]

theorem setAnswer_map_id (qs : List Question) (qid t : String) :
    (setAnswer qs qid t).map Question.id = qs.map Question.id := by
  induction qs with
  | nil => rfl
  | cons p rest ih =>
    show (((if (p.id == qid) = true then { p with user_answer := t } else p) ::
        setAnswer rest qid t).map Question.id) = p.id :: rest.map Question.id
    rw [List.map_cons, ih]
    congr 1
    split <;> rfl

theorem getAnswer_setAnswer (qs : List Question) (qid t : String)
    (hmem : qid ∈ qs.map Question.id) :
    getAnswer (setAnswer qs qid t) qid = t := by
  induction qs with
  | nil => simp at hmem
  | cons p rest ih =>
    show getAnswer ((if (p.id == qid) = true then { p with user_answer := t }
      else p) :: setAnswer rest qid t) qid = t
    by_cases h : (p.id == qid) = true
    · rw [if_pos h]
      exact getAnswer_cons_pos { p with user_answer := t } _ qid h
    · rw [if_neg h, getAnswer_cons_neg p _ qid h]
      apply ih
      rw [List.map_cons] at hmem
      rcases List.mem_cons.1 hmem with h1 | h2
      · exact absurd (beq_iff_eq.2 h1.symm) h
      · exact h2

theorem any_answered_eq_false_of_not_mem (qs : List Question) (qid : String)
    (hnm : qid ∉ qs.map Question.id) :
    qs.any (fun q => q.id == qid && !(q.user_answer == "")) = false := by
  rw [List.any_eq_false]
  intro q hq hcontra
  simp only [Bool.and_eq_true] at hcontra
  exact hnm (List.mem_map.2 ⟨q, hq, eq_of_beq hcontra.1⟩)

theorem any_answered_eq_false (qs : List Question) (qid : String)
    (hnd : (qs.map Question.id).Nodup)
    (hemp : getAnswer qs qid = "") :
    qs.any (fun q => q.id == qid && !(q.user_answer == "")) = false := by
  induction qs with
  | nil => rfl
  | cons p rest ih =>
    rw [List.map_cons] at hnd
    have hpn : p.id ∉ rest.map Question.id := (List.nodup_cons.1 hnd).1
    have hndr : (rest.map Question.id).Nodup := (List.nodup_cons.1 hnd).2
    by_cases h : (p.id == qid) = true
    · rw [getAnswer_cons_pos p rest qid h] at hemp
      have htail : qid ∉ rest.map Question.id := by
        rw [← eq_of_beq h]
        exact hpn
      rw [List.any_cons, h, hemp]
      simpa using any_answered_eq_false_of_not_mem rest qid htail
    · rw [getAnswer_cons_neg p rest qid h] at hemp
      rw [List.any_cons]
      simp only [Bool.or_eq_false_iff]
      constructor
      · simp only [Bool.and_eq_false_iff]
        left
        simpa using h
      · exact ih hndr hemp

theorem getAnswer_ne_of_any_answered (qs : List Question) (qid : String)
    (hnd : (qs.map Question.id).Nodup)
    (hany : qs.any (fun q => q.id == qid && !(q.user_answer == "")) = true) :
    getAnswer qs qid ≠ "" := by
  intro hemp
  rw [any_answered_eq_false qs qid hnd hemp] at hany
  cases hany

theorem resolveAnswer_mem_sentinels (b : Bool) : resolveAnswer b ∈ sentinels := by
  cases b <;> simp [resolveAnswer, sentinels]

theorem resolveAnswer_ne_empty (b : Bool) : resolveAnswer b ≠ "" := by
  cases b <;> simp [resolveAnswer]

theorem onEnd_cases (qid : String) (eg : Bool) (s : VState) :
    ((onEnd qid eg 1 s).questions = s.questions ∧
      (onEnd qid eg 1 s).hardTimers = s.hardTimers ∧
      (onEnd qid eg 1 s).transcripts = s.transcripts) ∨
    ((onEnd qid eg 1 s).questions =
        setAnswer s.questions qid (resolveAnswer s.hasNoMatch) ∧
      (onEnd qid eg 1 s).transcripts = s.transcripts) := by
  simp only [onEnd]
  split
  · exact Or.inl ⟨rfl, rfl, rfl⟩
  · split
    · exact Or.inl ⟨rfl, rfl, rfl⟩
    · split
      · split
        · exact Or.inl ⟨rfl, rfl, rfl⟩
        · exact Or.inr ⟨rfl, rfl⟩
      · exact Or.inl ⟨rfl, rfl, rfl⟩

theorem reach_inv {qid : String} {s : VState} (h : Reach qid s) : Inv qid s := by
  induction h with
  | start qs hmem hnd hempty =>
    refine ⟨hmem, hnd, ?_, Or.inl hempty⟩
    intro _
    exact List.mem_cons_self _ _
  | listenStart _ ih => exact ih
  | audioStart _ ih => exact ih
  | audioEnd _ ih => exact ih
  | @result s' t ht _ ih =>
    rcases ih with ⟨hmem, hnd, _, _⟩
    have hq : (onResult t qid s').questions = setAnswer s'.questions qid t := rfl
    have htr : (onResult t qid s').transcripts = s'.transcripts ++ [t] := rfl
    refine ⟨by rw [hq, setAnswer_map_id]; exact hmem,
      by rw [hq, setAnswer_map_id]; exact hnd, ?_, ?_⟩
    · intro hemp
      rw [hq, getAnswer_setAnswer _ _ _ hmem] at hemp
      exact absurd hemp ht
    · right; left
      rw [hq, getAnswer_setAnswer _ _ _ hmem, htr]
      simp
  | noMatch _ ih => exact ih
  | recError _ ih => exact ih
  | @ended s' elapsedGE _ ih =>
    rcases ih with ⟨hmem, hnd, himp, hform⟩
    rcases onEnd_cases qid elapsedGE s' with ⟨hq, hh, htr⟩ | ⟨hq, htr⟩
    · exact ⟨by rw [hq]; exact hmem, by rw [hq]; exact hnd,
        by rw [hq, hh]; exact himp, by rw [hq, htr]; exact hform⟩
    · refine ⟨by rw [hq, setAnswer_map_id]; exact hmem,
        by rw [hq, setAnswer_map_id]; exact hnd, ?_, ?_⟩
      · intro hemp
        rw [hq, getAnswer_setAnswer _ _ _ hmem] at hemp
        exact absurd hemp (resolveAnswer_ne_empty _)
      · right; right
        rw [hq, getAnswer_setAnswer _ _ _ hmem]
        exact resolveAnswer_mem_sentinels _
  | silence _ ih => exact ih
  | @hard s' _ ih =>
    rcases ih with ⟨hmem, hnd, himp, hform⟩
    by_cases hany :
        s'.questions.any (fun q => q.id == qid && !(q.user_answer == "")) = true
    · have hne := getAnswer_ne_of_any_answered s'.questions qid hnd hany
      rw [fireHardTimeout, if_pos hany]
      exact ⟨hmem, hnd, fun hemp => absurd hemp hne, hform⟩
    · rw [fireHardTimeout, if_neg hany]
      have hq : (finalizeQuestion qid
          { s' with questions := setAnswer s'.questions qid "[Timeout]",
                    emissions := s'.emissions ++ ["[Timeout]"] }).questions =
          setAnswer s'.questions qid "[Timeout]" := rfl
      refine ⟨by rw [hq, setAnswer_map_id]; exact hmem,
        by rw [hq, setAnswer_map_id]; exact hnd, ?_, ?_⟩
      · intro hemp
        rw [hq, getAnswer_setAnswer _ _ _ hmem] at hemp
        simp at hemp
      · right; right
        rw [hq, getAnswer_setAnswer _ _ _ hmem]
        simp [sentinels]

/-- Claim C1: for the prompt set with ids A, B, C (all unanswered,
ascending order) and maxAttempts = 3, when every recognizer attempt ends
(fires `ended`) with no result, no noMatch and no audio activity, each
prompt is retried until 3 listening attempts have run, the turn of each prompt
resolves NoResponse (answer "[No response]"), the prompts resolve in order
A then B then C, and exactly one outbound answer emission (`onUserSpoken`
call) occurs per prompt — exactly 3 in total. -/
theorem silent_session_abc :
    processQuestions [promptA, promptB, promptC] = [promptA, promptB, promptC] ∧
    runSilentSession [promptA, promptB, promptC] 3 =
      ([{ promptA with user_answer := "[No response]" },
        { promptB with user_answer := "[No response]" },
        { promptC with user_answer := "[No response]" }],
       [("A", "[No response]"), ("B", "[No response]"), ("C", "[No response]")],
       [3, 3, 3]) := by
  constructor
  · show sortByOrder (dedupe _) = _
    rw [show dedupe [promptA, promptB, promptC] = [promptA, promptB, promptC]
      from rfl]
    exact List.mergeSort_of_sorted (by decide)
  · decide

/-- Claim C2, counterexample: the hard deadline fires for the unanswered
prompt A while a recognizer attempt is pending (`recognizerActive = true`).
The turn is forced to "[Timeout]" with one emission, but the pending
recognizer attempt is NOT force-stopped: it is still active afterwards —
the timeout callback has no access to the recognition object and never
stops it, contrary to the claim. -/
theorem hard_timeout_no_force_stop_cex :
    cexTimeoutState.recognizerActive = true ∧
    getAnswer cexTimeoutState.questions "A" = "" ∧
    getAnswer (fireHardTimeout "A" cexTimeoutState).questions "A" = "[Timeout]" ∧
    (fireHardTimeout "A" cexTimeoutState).emissions = ["[Timeout]"] ∧
    (fireHardTimeout "A" cexTimeoutState).recognizerActive = true := by
  decide

/-- Claim C2, amended: a hard-deadline timer for the prompt is armed when
its turn starts (`speakAgentQuestion`), and if it fires while the
answer is still empty the turn is forced to TimedOut — the answer is set to
"[Timeout]", an answer emission with "[Timeout]" occurs, and the
timers are cleared — superseding any retry in progress; the pending
recognizer attempt, however, is left running (only the timers are
cleared), not force-stopped. -/
theorem hard_timeout_forces_timeout (qid : String) (s : VState)
    (hmem : qid ∈ s.questions.map Question.id)
    (hnd : (s.questions.map Question.id).Nodup)
    (hemp : getAnswer s.questions qid = "") :
    qid ∈ (startTurn qid s).hardTimers ∧
    getAnswer (fireHardTimeout qid s).questions qid = "[Timeout]" ∧
    (fireHardTimeout qid s).emissions = s.emissions ++ ["[Timeout]"] ∧
    qid ∉ (fireHardTimeout qid s).hardTimers ∧
    (fireHardTimeout qid s).silenceArmed = false ∧
    (fireHardTimeout qid s).recognizerActive = s.recognizerActive := by
  have hany := any_answered_eq_false s.questions qid hnd hemp
  have hif : fireHardTimeout qid s = finalizeQuestion qid
      { s with questions := setAnswer s.questions qid "[Timeout]",
               emissions := s.emissions ++ ["[Timeout]"] } := by
    rw [fireHardTimeout, if_neg (by rw [hany]; exact Bool.false_ne_true)]
  refine ⟨List.mem_cons_self _ _, ?_, ?_, ?_, ?_, ?_⟩
  · rw [hif]
    exact getAnswer_setAnswer s.questions qid "[Timeout]" hmem
  · rw [hif]
    rfl
  · rw [hif]
    simp [finalizeQuestion, List.mem_filter]
  · rw [hif]
    rfl
  · rw [hif]
    rfl

/-- Witness for the amended C2 theorem at a concrete state. -/
theorem hard_timeout_forces_timeout_witness :
    "A" ∈ (startTurn "A" cexTimeoutState).hardTimers ∧
    getAnswer (fireHardTimeout "A" cexTimeoutState).questions "A" = "[Timeout]" ∧
    (fireHardTimeout "A" cexTimeoutState).recognizerActive =
      cexTimeoutState.recognizerActive := by
  have h := hard_timeout_forces_timeout "A" cexTimeoutState
    (by decide) (by decide) (by decide)
  exact ⟨h.1, h.2.1, h.2.2.2.2.2⟩

/-- Claim C3: in the live-agent variants, if a recognition result arrives
while SpeakingFlag (`agentIsSpeakingRef`) is true, then within the result
handler synthesis is cancelled, SpeakingFlag is set to false, and the
transcript is resolved as the answer of the turn and sent as the `user_message`
— without waiting for synthesis to finish. (The second variant sends the
transcript twice: once unconditionally, once in the barge-in branch.) -/
theorem barge_in_resolves (t : String) (s : LiveState)
    (hs : s.agentIsSpeaking = true) (hw : s.wsOpen = true) :
    ((onResultLive1 t s).1.agentIsSpeaking = false ∧
      (onResultLive1 t s).1.cancelCalls = s.cancelCalls + 1 ∧
      (onResultLive1 t s).1.sent = s.sent ++ [t] ∧
      (onResultLive1 t s).2 = t) ∧
    ((onResultLive2 t s).1.agentIsSpeaking = false ∧
      (onResultLive2 t s).1.cancelCalls = s.cancelCalls + 1 ∧
      (onResultLive2 t s).1.sent = s.sent ++ [t] ++ [t] ∧
      (onResultLive2 t s).2 = t) := by
  constructor
  · rw [onResultLive1, if_pos hs]
    exact ⟨rfl, rfl, by rw [hw]; simp, rfl⟩
  · rw [onResultLive2]
    simp only []
    rw [if_pos hs]
    exact ⟨rfl, rfl, by rw [hw]; simp, rfl⟩

/-- Witness for C3 at a concrete barge-in state. -/
theorem barge_in_resolves_witness :
    liveSpeaking.agentIsSpeaking = true ∧
    (onResultLive1 "hello" liveSpeaking).1.agentIsSpeaking = false ∧
    (onResultLive1 "hello" liveSpeaking).1.sent = ["hello"] := by
  have h := barge_in_resolves "hello" liveSpeaking rfl rfl
  exact ⟨rfl, h.1.1, h.1.2.2.1⟩

/-- Claim C5, counterexample: in the retry loop of the second live variant, the
echoed transcript "Can you hear me?" IS sent as a `user_message` — the
result handler sends it unconditionally before the filter runs — although
the filter then fails the attempt. This contradicts "it is never sent as
the user_message answer". -/
theorem echo_sent_cex :
    isEcho "Can you hear me?" = true ∧
    (tryAttemptLive2 (.result "Can you hear me?") liveIdle).1.sent =
      ["Can you hear me?"] ∧
    (tryAttemptLive2 (.result "Can you hear me?") liveIdle).2 =
      some (.errorObj "No speech detected") := by
  decide

/-- Claim C5, amended: in the live retry loops, a transcript whose trimmed,
lower-cased text equals "can you hear me?" is discarded by the filter,
which never sends it itself and fails the attempt; in the first variant
nothing is sent at all, while in the second variant the result handler has
already sent the transcript once before the filter runs. The failure is a
thrown Error object, which the strict string comparison in the catch handler
does not recognize as the silent-attempt rejection, so the session is
ended rather than the attempt being retried like a silent one. -/
theorem echo_filter_discards (t : String) (s : LiveState)
    (he : isEcho t = true) (hs : s.agentIsSpeaking = false) :
    (tryAttemptLive1 (.result t) s).1.sent = s.sent ∧
    (tryAttemptLive1 (.result t) s).2 = some (.errorObj "No speech detected") ∧
    (tryAttemptLive2 (.result t) s).1.sent =
      s.sent ++ (if s.wsOpen then [t] else []) ∧
    (tryAttemptLive2 (.result t) s).2 = some (.errorObj "No speech detected") ∧
    (∀ a w, (handleFailure (.errorObj "No speech detected") a w).2.1 =
      .sessionEnd) := by
  have h1 : onResultLive1 t s = ({ s with recognizerActive := false }, t) := by
    rw [onResultLive1, if_neg (by rw [hs]; exact Bool.false_ne_true)]
  have h2 : onResultLive2 t s =
      ({ s with sent := s.sent ++ (if s.wsOpen then [t] else []) }, t) := by
    rw [onResultLive2]
    exact if_neg (by rw [hs]; exact Bool.false_ne_true)
  refine ⟨?_, ?_, ?_, ?_, ?_⟩
  · rw [tryAttemptLive1, h1]
    simp only [he, if_pos]
  · rw [tryAttemptLive1, h1]
    simp only [he, if_pos]
  · rw [tryAttemptLive2, h2]
    simp only [he, if_pos]
  · rw [tryAttemptLive2, h2]
    simp only [he, if_pos]
  · intro a w
    have hne : (Err.errorObj "No speech detected" ==
        Err.strErr "No speech detected") = false := by decide
    rw [handleFailure]
    simp only [hne, Bool.false_and, Bool.false_eq_true, if_false]
    cases w <;> simp

/-- Witness for the amended C5 theorem at a concrete echoed transcript. -/
theorem echo_filter_discards_witness :
    isEcho " Can you HEAR me? " = true ∧
    (tryAttemptLive1 (.result " Can you HEAR me? ") liveIdle).1.sent = [] ∧
    (tryAttemptLive1 (.result " Can you HEAR me? ") liveIdle).2 =
      some (.errorObj "No speech detected") := by
  have h := echo_filter_discards " Can you HEAR me? " liveIdle (by decide) rfl
  exact ⟨by decide, h.1, h.2.1⟩

/-- Claim C4: in the hard-timer variant, for every prompt and every sequence
of recognizer, synthesizer and timer events from the turn start, whenever
the prompt is still unresolved its hard-deadline timer (armed at turn start,
MAX_TIMEOUT_TIMER = 30 s) is still armed, so the deadline will fire; the
answer is at all times empty, a delivered transcript, or one of the three
sentinels; and firing the hard deadline always leaves the prompt resolved
with one of the sentinel-or-answer outcomes. Hence the turn never remains
unresolved past the hard deadline. -/
theorem turn_resolves_by_hard_deadline {qid : String} {s : VState}
    (h : Reach qid s) :
    (getAnswer s.questions qid = "" → qid ∈ s.hardTimers) ∧
    (getAnswer s.questions qid = "" ∨ getAnswer s.questions qid ∈ s.transcripts ∨
      getAnswer s.questions qid ∈ sentinels) ∧
    getAnswer (fireHardTimeout qid s).questions qid ≠ "" ∧
    (getAnswer (fireHardTimeout qid s).questions qid ∈ s.transcripts ∨
      getAnswer (fireHardTimeout qid s).questions qid ∈ sentinels) := by
  obtain ⟨hmem, hnd, himp, hform⟩ := reach_inv h
  refine ⟨himp, hform, ?_⟩
  by_cases hany :
      s.questions.any (fun q => q.id == qid && !(q.user_answer == "")) = true
  · have hne := getAnswer_ne_of_any_answered s.questions qid hnd hany
    have hq : (fireHardTimeout qid s).questions = s.questions := by
      rw [fireHardTimeout, if_pos hany]
      rfl
    rw [hq]
    refine ⟨hne, ?_⟩
    rcases hform with hemp | hrest
    · exact absurd hemp hne
    · exact hrest
  · have hq : (fireHardTimeout qid s).questions =
        setAnswer s.questions qid "[Timeout]" := by
      rw [fireHardTimeout, if_neg hany]
      rfl
    rw [hq, getAnswer_setAnswer s.questions qid "[Timeout]" hmem]
    exact ⟨by simp, Or.inr (by simp [sentinels])⟩

/-- Witness for C4: a concrete reachable state (turn started for prompt A,
then listening started) on which the hard deadline resolves the turn. -/
theorem turn_resolves_by_hard_deadline_witness :
    getAnswer (fireHardTimeout "A" (startListening (startTurn "A"
      { questions := [promptA], hardTimers := [], silenceArmed := false,
        hasResult := false, hasNoMatch := false, audioActive := false,
        retryHandled := false, recognizerActive := false,
        emissions := [], transcripts := [] }))).questions "A" ≠ "" := by
  have h := turn_resolves_by_hard_deadline
    (Reach.listenStart
      (@Reach.start "A" [promptA] (by decide) (by decide) (by decide)))
  exact h.2.2.1

/-- Claim C6: in the scripted variants, when a listening attempt sequence
ends without a result and without further retries, the turn resolves
"[Unintelligible]" if a noMatch occurred during the final attempt and
"[No response]" if only silence occurred: the useVoiceChatv2 `onend`
decision resolves with `resolveAnswer` once `attempt ≥ 3`, the hard-timer
variant `onend` emits and records `resolveAnswer` when it resolves, and
`resolveAnswer` maps noMatch to "[Unintelligible]" and silence to
"[No response]". -/
theorem final_attempt_failure_class (hnm : Bool) (attempt : Nat)
    (hfin : 3 ≤ attempt) :
    onendDecision false hnm attempt = .resolve (resolveAnswer hnm) ∧
    (∀ (qid : String) (s : VState) (eg : Bool),
      s.retryHandled = false → s.hasResult = false →
      (eg || s.hasNoMatch) = true →
      (onEnd qid eg 1 s).questions =
        setAnswer s.questions qid (resolveAnswer s.hasNoMatch) ∧
      (onEnd qid eg 1 s).emissions =
        s.emissions ++ [resolveAnswer s.hasNoMatch]) ∧
    resolveAnswer true = "[Unintelligible]" ∧
    resolveAnswer false = "[No response]" := by
  refine ⟨?_, ?_, rfl, rfl⟩
  · cases hnm <;> simp [onendDecision, resolveAnswer, Nat.not_lt.2 hfin]
  · intro qid s eg hrh hres heg
    have hstep : onEnd qid eg 1 s = finalizeQuestion qid
        { s with retryHandled := true, silenceArmed := false,
                 questions := setAnswer s.questions qid (resolveAnswer s.hasNoMatch),
                 emissions := s.emissions ++ [resolveAnswer s.hasNoMatch] } := by
      rw [onEnd, if_neg (by rw [hrh]; exact Bool.false_ne_true)]
      show (if s.hasResult = true then _ else _) = _
      rw [if_neg (by rw [hres]; exact Bool.false_ne_true)]
      show (if (eg || s.hasNoMatch) = true then _ else _) = _
      rw [if_pos heg]
      show (if (decide (1 < 1) && !s.hasNoMatch) = true then _ else _) = _
      rw [if_neg (by simp)]
    rw [hstep]
    exact ⟨rfl, rfl⟩

/-- Witness for C6 at noMatch on the final attempt, over a concrete state. -/
theorem final_attempt_failure_class_witness :
    onendDecision false true 3 = .resolve "[Unintelligible]" ∧
    (onEnd "A" true 1 cexTimeoutState).emissions = ["[No response]"] := by
  have h := final_attempt_failure_class true 3 (by decide)
  have h2 := (h.2.1 "A" cexTimeoutState true rfl rfl rfl).2
  exact ⟨by rw [h.1]; rfl, by rw [h2]; rfl⟩

/-- Claim C7: during every listening attempt the silence timer follows
voice activity — `audioStart` cancels any pending silence timer (the timer
ref is cleared) and records activity, and `audioEnd`, when neither a result
nor a noMatch has occurred in the attempt, (re)arms the silence timer. -/
theorem silence_timer_voice_activity :
    (∀ s : VState, (onAudioStart s).silenceArmed = false ∧
      (onAudioStart s).audioActive = true) ∧
    (∀ s : VState, s.hasResult = false → s.hasNoMatch = false →
      (onAudioEnd s).silenceArmed = true ∧
      (onAudioEnd s).audioActive = false) := by
  refine ⟨fun s => ⟨rfl, rfl⟩, fun s h1 h2 => ⟨?_, rfl⟩⟩
  show (if !s.hasResult && !s.hasNoMatch then true else s.silenceArmed) = true
  rw [h1, h2]
  rfl

/-- Witness for C7 at a concrete attempt state. -/
theorem silence_timer_voice_activity_witness :
    (onAudioStart cexTimeoutState).silenceArmed = false ∧
    (onAudioEnd cexTimeoutState).silenceArmed = true := by
  have h := silence_timer_voice_activity
  exact ⟨(h.1 cexTimeoutState).1, (h.2 cexTimeoutState rfl rfl).1⟩

/-- Claim C8: for every input prompt list, the processed prompt set keeps
exactly the first occurrence of each id — membership in the processed set
is equivalent to being the `find?`-first entry with that id, and the
processed ids are pairwise distinct while every input id is represented —
sorted by ascending `order`; and the current prompt (`find?` over the
processed state) is always the first entry with an empty answer. -/
theorem dedupe_sort_current (qs : List Question) :
    (∀ q : Question, q ∈ processQuestions qs ↔
      qs.find? (fun p => p.id == q.id) = some q) ∧
    ((processQuestions qs).map Question.id).Nodup ∧
    (∀ q ∈ qs, ∃ p ∈ processQuestions qs, p.id = q.id) ∧
    (processQuestions qs).Pairwise (fun a b => a.order ≤ b.order) ∧
    (∀ s : List Question, currentQuestionOf s = firstUnanswered s) := by
  refine ⟨fun q => mem_processQuestions q qs, processQuestions_ids_nodup qs, ?_,
    processQuestions_sorted qs, find_eq_firstUnanswered⟩
  intro q hq
  have hsome : (qs.find? (fun p => p.id == q.id)).isSome :=
    List.find?_isSome.2 ⟨q, hq, by simp⟩
  obtain ⟨p0, hp0⟩ := Option.isSome_iff_exists.1 hsome
  have hbeq :=
    @List.find?_some Question (fun p : Question => p.id == q.id) p0 qs hp0
  have hpeq : p0.id = q.id := eq_of_beq hbeq
  refine ⟨p0, (mem_processQuestions p0 qs).2 ?_, hpeq⟩
  rw [show (fun p : Question => p.id == p0.id) = (fun p : Question => p.id == q.id)
    from by funext p; rw [hpeq]]
  exact hp0

/-- Witness for C8: the duplicate of id A is dropped (first occurrence
kept) on a concrete list. -/
theorem dedupe_sort_current_witness :
    promptA ∈ processQuestions [promptA,
      { promptA with agent_question := "duplicate" }, promptB] := by
  have h := dedupe_sort_current [promptA,
    { promptA with agent_question := "duplicate" }, promptB]
  exact (h.1 promptA).2 (by decide)

/-- Claim C9: in the live-agent variants, when the retry loop exhausts its
attempts (the incremented count reaches maxAttempts = 3) or a failure other
than the silent-attempt string rejection occurs, the catch handler sends
`(type session_ended, reason)` over the open channel and closes it, and
does not start another attempt. -/
theorem retry_exhaustion_ends_session (e : Err) (attempts : Nat)
    (h : maxAttempts ≤ attempts + 1 ∨ e ≠ Err.strErr "No speech detected") :
    (handleFailure e attempts true).2.1 = .sessionEnd ∧
    (handleFailure e attempts true).2.2.1 =
      [("session_ended", "No speech detected after multiple attempts")] ∧
    (handleFailure e attempts true).2.2.2 = false := by
  have hcond : (e == Err.strErr "No speech detected" &&
      decide (attempts + 1 < maxAttempts)) = false := by
    rcases h with h | h
    · simp [Nat.not_lt.2 h]
    · simp [h]
  rw [handleFailure]
  simp only [hcond, Bool.false_eq_true, if_false, if_pos rfl]
  exact ⟨rfl, rfl, rfl⟩

/-- Witness for C9: three failed silent attempts exhaust the loop. -/
theorem retry_exhaustion_ends_session_witness :
    (handleFailure (.strErr "No speech detected") 2 true).2.1 = .sessionEnd ∧
    (handleFailure (.strErr "No speech detected") 2 true).2.2.2 = false := by
  have h := retry_exhaustion_ends_session (.strErr "No speech detected") 2
    (Or.inl (by decide))
  exact ⟨h.1, h.2.2⟩

/-- Claim C10: in the hard-timer variant, if the hard-deadline timer fires
for a question whose answer is already non-empty, the question list is
returned unchanged — no answer is overwritten with "[Timeout]" and no
answer emission occurs — and only the timers are cleared (for the question the
hard deadline is deleted and the silence timer cleared). -/
theorem hard_timeout_answered_frame (qid : String) (s : VState)
    (hans : s.questions.any (fun q => q.id == qid && !(q.user_answer == "")) = true) :
    (fireHardTimeout qid s).questions = s.questions ∧
    (fireHardTimeout qid s).emissions = s.emissions ∧
    (fireHardTimeout qid s).hardTimers =
      s.hardTimers.filter (fun k => !(k == qid)) ∧
    (fireHardTimeout qid s).silenceArmed = false ∧
    (fireHardTimeout qid s).recognizerActive = s.recognizerActive ∧
    (fireHardTimeout qid s).transcripts = s.transcripts := by
  rw [fireHardTimeout, if_pos hans]
  exact ⟨rfl, rfl, rfl, rfl, rfl, rfl⟩

/-- Witness for C10 at a concrete answered state. -/
theorem hard_timeout_answered_frame_witness :
    (fireHardTimeout "A" answeredState).questions = answeredState.questions ∧
    (fireHardTimeout "A" answeredState).emissions = [] := by
  have h := hard_timeout_answered_frame "A" answeredState (by decide)
  exact ⟨h.1, h.2.1⟩

end TurnTaking
